import Mathlib

/-!
Shallow embedding of the lox_rs language pipeline (lexer, parser, evaluator)
from `src/lox_lib/src/{lexer,ast,parser,interpreter}.rs`, together with
theorems settling the specification claims.

Modelling conventions:
* Rust `f32` payloads are modelled as `ℚ`; no claim exercises floating-point
  rounding, overflow, infinities or NaN.
* Rust `char::is_numeric` / `is_alphabetic` / `is_alphanumeric` are modelled
  by `Char.isDigit` / `Char.isAlpha` / `Char.isAlphanum`; no claim depends on
  non-ASCII character classes.
* Rust panics (`unwrap`, `expect`, `todo!`, out-of-bounds indexing) are
  modelled by an explicit `panicked` outcome; `Result::Err` by `err`.
* The parser mutates its token vector in place, so the embedding threads the
  remaining token list through every outcome, including errors.
-/

namespace LoxRs

/-- Abbreviation for the Rust `String` payload type (avoids ambiguity with
constructors named `String` below). -/
abbrev Str := String

/-! ## Token model — src/lox_lib/src/lexer.rs -/

/-- `TokenType` from lexer.rs: the kinds of tokens of the Lox language.
`Number` carries the parsed 32-bit float, modelled as `ℚ`. -/
inductive TokenType where
  | LeftParen | RightParen | LeftBrace | RightBrace | Comma | Dot | Minus | Plus
  | Semicolon | Slash | Star
  | Bang | BangEqual | Equal | EqualEqual | Greater | GreaterEqual | Less | LessEqual
  | Identifier
  | String (s : Str)
  | Number (n : ℚ)
  | And | Class | Else | False | Fun | For | If | Nil | Or | Print | Return
  | Super | This | True | Var | While
  | Eof
deriving DecidableEq, Repr

/-- `Token` from lexer.rs: a token type, the 1-based source line, and the
lexeme kept for diagnostics. -/
structure Token where
  token_type : TokenType
  line : ℕ
  lexeme : Option Str
deriving DecidableEq, Repr

/-- `Token::new` (lexer.rs): wraps the lexeme in `Some`. -/
def Token.new (token_type : TokenType) (lexeme : Str) (line : ℕ) : Token :=
  ⟨token_type, line, some lexeme⟩

/-- The `RESERVED_KEYWORDS` table from lexer.rs (a `HashMap`, modelled as an
association list; lookups use string equality exactly as the map does). -/
def RESERVED_KEYWORDS : List (Str × TokenType) :=
  [("fun", .Fun), ("var", .Var), ("if", .If), ("else", .Else),
   ("return", .Return), ("true", .True), ("false", .False), ("and", .And),
   ("or", .Or), ("nil", .Nil), ("for", .For), ("super", .Super),
   ("class", .Class), ("this", .This), ("while", .While), ("print", .Print)]

/-- The lexical errors produced by `Lexer` (in the source they are rendered as
`anyhow` strings via `Lexer::lexical_error`; each constructor carries exactly
the data interpolated into the corresponding format string). -/
inductive LexError where
  /-- `"unexpected character! {}"` with the offending lexeme. -/
  | UnexpectedCharacter (lexeme : Str) (line : ℕ)
  /-- `"Unterminated string literal {}"` with the partial payload. -/
  | UnterminatedString (val : Str) (line : ℕ)
  /-- `"Invalid number literal {}"` with the accumulated text. -/
  | InvalidNumber (val : Str) (line : ℕ)
deriving DecidableEq, Repr

/-- Outcome of a lexer computation: success, a `LexicalError` (`Result::Err`),
or a Rust panic. -/
inductive LRes (α : Type) where
  | ok (a : α)
  | err (e : LexError)
  | panicked (msg : Str)
deriving DecidableEq, Repr

/-! ## Rust `str::parse::<f32>` model

`Lexer::lex_number_literals` only ever feeds `parse::<f32>` strings that
start with a decimal digit and continue with digits and `.` characters.  On
that alphabet the Rust float grammar accepts exactly the strings containing
at most one `.` (and at least one digit), e.g. `"1"`, `"1."`, `"45.45"`, and
rejects `"1.2.3"`.  The numeric value is the exact decimal value (rounding to
the nearest `f32` is not modelled; no claim depends on it). -/

/-- Value of a digit string read in base 10. -/
def digitsToNat (cs : List Char) : ℕ :=
  cs.foldl (fun acc c => 10 * acc + (c.toNat - 48)) 0

/-- Whether Rust `str::parse::<f32>` succeeds, restricted to the digit/dot
strings the lexer produces. -/
def isF32Parseable (cs : List Char) : Bool :=
  (cs.all fun c => c.isDigit || c == '.') &&
  (decide (cs.count '.' ≤ 1)) &&
  (cs.any fun c => c.isDigit)

/-- Rust `str::parse::<f32>` on the lexer's digit/dot strings: `some` exact
decimal value on success, `none` on a malformed literal such as `"1.2.3"`. -/
def parseF32 (cs : List Char) : Option ℚ :=
  if isF32Parseable cs then
    let intPart := cs.takeWhile fun c => c ≠ '.'
    let fracPart := (cs.dropWhile fun c => c ≠ '.').drop 1
    some ((digitsToNat intPart : ℚ) + (digitsToNat fracPart : ℚ) / (10 : ℚ) ^ fracPart.length)
  else none

/-! ## Lexer — src/lox_lib/src/lexer.rs -/

/-- The loop of `Lexer::lex_string_literals`: consume characters until a quote
character (`"` or `'`, regardless of which quote opened the literal) is found;
the terminating quote is consumed.  Iterator exhaustion without a terminator
is the `Unterminated string literal` error. -/
def lexStringLoop (lexeme : Str) (line_number : ℕ) (val : Str) :
    List Char → LRes (Token × List Char)
  | [] => .err (.UnterminatedString val line_number)
  | c :: rest =>
    if c = '"' ∨ c = '\'' then
      .ok (Token.new (.String val) (lexeme ++ val ++ c.toString) line_number, rest)
    else
      lexStringLoop lexeme line_number (val.push c) rest

/-- `Lexer::lex_string_literals`: `lexeme` is the opening quote character. -/
def lex_string_literals (lexeme : Str) (cs : List Char) (line_number : ℕ) :
    LRes (Token × List Char) :=
  lexStringLoop lexeme line_number "" cs

/-- The loop of `Lexer::lex_number_literals`: greedily accumulate digits and
`.` characters.  A following non-digit, non-dot character ends the literal
without being consumed, and the accumulated text is parsed with
`val.parse::<f32>().unwrap()` — a panic when the parse fails.  At iterator
exhaustion the parse result is matched and failure becomes the
`Invalid number literal` error. -/
def lexNumberLoop (line_number : ℕ) (val : Str) :
    List Char → LRes (Token × List Char)
  | [] =>
    match parseF32 val.toList with
    | some num => .ok (Token.new (.Number num) val line_number, [])
    | none => .err (.InvalidNumber val line_number)
  | c :: rest =>
    if ¬ c.isDigit ∧ c ≠ '.' then
      match parseF32 val.toList with
      | some num => .ok (Token.new (.Number num) val line_number, c :: rest)
      | none => .panicked "called Result::unwrap() on an Err value: ParseFloatError"
    else
      lexNumberLoop line_number (val.push c) rest

/-- `Lexer::lex_number_literals`: `lexeme` is the leading digit character. -/
def lex_number_literals (lexeme : Str) (cs : List Char) (line_number : ℕ) :
    LRes (Token × List Char) :=
  lexNumberLoop line_number lexeme cs

/-- The `check_keyword` closure of `Lexer::lex_identifier_literals`. -/
def check_keyword (val : Str) (line_number : ℕ) : Token :=
  match RESERVED_KEYWORDS.lookup val with
  | some token_type => Token.new token_type val line_number
  | none => Token.new .Identifier val line_number

/-- The loop of `Lexer::lex_identifier_literals`: greedily accumulate
alphanumeric and `_` characters; a terminating character is not consumed. -/
def lexIdentLoop (line_number : ℕ) (val : Str) :
    List Char → Token × List Char
  | [] => (check_keyword val line_number, [])
  | c :: rest =>
    if c.isAlphanum ∨ c = '_' then
      lexIdentLoop line_number (val.push c) rest
    else
      (check_keyword val line_number, c :: rest)

/-- `Lexer::lex_identifier_literals` (never fails; `Result` in the source). -/
def lex_identifier_literals (lexeme : Str) (cs : List Char) (line_number : ℕ) :
    LRes (Token × List Char) :=
  .ok (lexIdentLoop line_number lexeme cs)

/-- The comment arm of `Lexer::lex_chars`: consume characters up to and
including the first newline. -/
def skipComment : List Char → List Char
  | [] => []
  | c :: rest => if c = '\n' then rest else skipComment rest

/-- Prepend a token to the outcome of lexing the rest of the line. -/
def consToken (t : Token) : LRes (List Token) → LRes (List Token)
  | .ok ts => .ok (t :: ts)
  | .err e => .err e
  | .panicked msg => .panicked msg

def lexStringLoop_length (lexeme : Str) (line_number : ℕ) :
    ∀ (cs : List Char) (val : Str) (t : Token) (r : List Char),
      lexStringLoop lexeme line_number val cs = .ok (t, r) → r.length ≤ cs.length := by
  intro cs
  induction cs with
  | nil =>
    intro val t r h
    simp [lexStringLoop] at h
  | cons c rest ih =>
    intro val t r h
    simp only [lexStringLoop] at h
    split at h
    · simp only [LRes.ok.injEq, Prod.mk.injEq] at h
      obtain ⟨-, h2⟩ := h
      subst h2
      simp
    · exact le_trans (ih _ _ _ h) (by simp)

def lexNumberLoop_length (line_number : ℕ) :
    ∀ (cs : List Char) (val : Str) (t : Token) (r : List Char),
      lexNumberLoop line_number val cs = .ok (t, r) → r.length ≤ cs.length := by
  intro cs
  induction cs with
  | nil =>
    intro val t r h
    simp only [lexNumberLoop] at h
    split at h
    · simp only [LRes.ok.injEq, Prod.mk.injEq] at h
      obtain ⟨-, h2⟩ := h
      subst h2
      simp
    · simp only [reduceCtorEq] at h
  | cons c rest ih =>
    intro val t r h
    simp only [lexNumberLoop] at h
    split at h
    · split at h
      · simp only [LRes.ok.injEq, Prod.mk.injEq] at h
        obtain ⟨-, h2⟩ := h
        subst h2
        simp
      · simp only [reduceCtorEq] at h
    · exact le_trans (ih _ _ _ h) (by simp)

def lexIdentLoop_length (line_number : ℕ) :
    ∀ (cs : List Char) (val : Str),
      (lexIdentLoop line_number val cs).2.length ≤ cs.length := by
  intro cs
  induction cs with
  | nil => intro val; simp [lexIdentLoop]
  | cons c rest ih =>
    intro val
    simp only [lexIdentLoop]
    split
    · exact le_trans (ih _) (by simp)
    · simp

def skipComment_length : ∀ cs : List Char, (skipComment cs).length ≤ cs.length := by
  intro cs
  induction cs with
  | nil => simp [skipComment]
  | cons c rest ih =>
    simp only [skipComment]
    split
    · simp
    · exact le_trans ih (by simp)

/-- `Lexer::lex_chars`: single-character-lookahead dispatch over one line. -/
def lexChars (cs : List Char) (line_number : ℕ) : LRes (List Token) :=
  match cs with
  | [] => .ok []
  | c :: rest =>
    if c = '(' then consToken (Token.new .LeftParen c.toString line_number) (lexChars rest line_number)
    else if c = ')' then consToken (Token.new .RightParen c.toString line_number) (lexChars rest line_number)
    else if c = '{' then consToken (Token.new .LeftBrace c.toString line_number) (lexChars rest line_number)
    else if c = '}' then consToken (Token.new .RightBrace c.toString line_number) (lexChars rest line_number)
    else if c = ',' then consToken (Token.new .Comma c.toString line_number) (lexChars rest line_number)
    else if c = '.' then consToken (Token.new .Dot c.toString line_number) (lexChars rest line_number)
    else if c = '-' then consToken (Token.new .Minus c.toString line_number) (lexChars rest line_number)
    else if c = '+' then consToken (Token.new .Plus c.toString line_number) (lexChars rest line_number)
    else if c = ';' then consToken (Token.new .Semicolon c.toString line_number) (lexChars rest line_number)
    else if c = '*' then consToken (Token.new .Star c.toString line_number) (lexChars rest line_number)
    else if c = '/' then
      if rest.head? = some '/' then
        lexChars (skipComment rest) line_number
      else
        consToken (Token.new .Slash c.toString line_number) (lexChars rest line_number)
    else if c = '!' then
      if rest.head? = some '=' then
        consToken (Token.new .BangEqual "!=" line_number) (lexChars rest.tail line_number)
      else
        consToken (Token.new .Bang c.toString line_number) (lexChars rest line_number)
    else if c = '=' then
      if rest.head? = some '=' then
        consToken (Token.new .EqualEqual "==" line_number) (lexChars rest.tail line_number)
      else
        consToken (Token.new .Equal c.toString line_number) (lexChars rest line_number)
    else if c = '>' then
      if rest.head? = some '=' then
        consToken (Token.new .GreaterEqual ">=" line_number) (lexChars rest.tail line_number)
      else
        consToken (Token.new .Greater c.toString line_number) (lexChars rest line_number)
    else if c = '<' then
      if rest.head? = some '=' then
        consToken (Token.new .LessEqual "<=" line_number) (lexChars rest.tail line_number)
      else
        consToken (Token.new .Less c.toString line_number) (lexChars rest line_number)
    else if c = ' ' ∨ c = '\r' ∨ c = '\t' then
      lexChars rest line_number
    else if c = '\'' ∨ c = '"' then
      match h : lex_string_literals c.toString rest line_number with
      | .ok (t, rest2) => consToken t (lexChars rest2 line_number)
      | .err e => .err e
      | .panicked msg => .panicked msg
    else if c.isDigit then
      match h : lex_number_literals c.toString rest line_number with
      | .ok (t, rest2) => consToken t (lexChars rest2 line_number)
      | .err e => .err e
      | .panicked msg => .panicked msg
    else if c.isAlpha then
      match h : lex_identifier_literals c.toString rest line_number with
      | .ok (t, rest2) => consToken t (lexChars rest2 line_number)
      | .err e => .err e
      | .panicked msg => .panicked msg
    else
      .err (.UnexpectedCharacter c.toString line_number)
termination_by cs.length
decreasing_by
  all_goals simp only [List.length_cons]
  all_goals first
    | exact Nat.lt_succ_of_le (Nat.le_refl _)
    | (rw [List.length_tail]; omega)
    | exact Nat.lt_succ_of_le (skipComment_length _)
    | exact Nat.lt_succ_of_le (lexStringLoop_length _ _ _ _ _ _ h)
    | exact Nat.lt_succ_of_le (lexNumberLoop_length _ _ _ _ _ h)
    | (have h2 := lexIdentLoop_length line_number rest c.toString
       simp only [lex_identifier_literals, LRes.ok.injEq] at h
       rw [h] at h2
       exact Nat.lt_succ_of_le h2)

/-- The per-line traversal of `Lexer::lex`: `input.lines().enumerate()` with
1-based line numbers, fail-fast collection. -/
def lexLines : List (List Char) → ℕ → LRes (List Token)
  | [], _ => .ok []
  | l :: ls, n =>
    match lexChars l n with
    | .ok ts =>
      match lexLines ls (n + 1) with
      | .ok rest => .ok (ts ++ rest)
      | .err e => .err e
      | .panicked msg => .panicked msg
    | .err e => .err e
    | .panicked msg => .panicked msg

/-- `Lexer::lex`: the input is given as its list of physical lines (the output
of Rust `str::lines`), each as a character list.  Appends one `Eof` token
whose line is the last token's line, or `0` when no tokens were produced. -/
def lex (input : List (List Char)) : LRes (List Token) :=
  match lexLines input 1 with
  | .ok tokens =>
    let final_line : ℕ :=
      match tokens.getLast? with
      | some t => t.line
      | none => 0
    .ok (tokens ++ [Token.new .Eof "" final_line])
  | .err e => .err e
  | .panicked msg => .panicked msg

/-! ## AST model — src/lox_lib/src/ast.rs -/

/-- `Operator` from ast.rs: each variant carries the source line of the
operator token. -/
inductive Operator where
  | Add (line : ℕ)
  | Subtract (line : ℕ)
  | Multiply (line : ℕ)
  | Divide (line : ℕ)
  | GreaterThan (line : ℕ)
  | LessThan (line : ℕ)
  | Equal (line : ℕ)
  | EqualEqual (line : ℕ)
  | NotEqual (line : ℕ)
  | And (line : ℕ)
  | Or (line : ℕ)
  | Bang (line : ℕ)
deriving DecidableEq, Repr

/-- `Literal` from ast.rs: the runtime values. -/
inductive Literal where
  | Number (n : ℚ)
  | String (s : Str)
  | Boolean (b : Bool)
  | Nil
deriving DecidableEq, Repr

/-- `ExprNode` from ast.rs (`Box` indirection is immaterial in Lean). -/
inductive ExprNode where
  | Literal (l : LoxRs.Literal)
  | Grouping (child : ExprNode)
  | UnaryExpr (operator : Operator) (right : ExprNode)
  | BinaryExpr (left : ExprNode) (operator : Operator) (right : ExprNode)
deriving DecidableEq, Repr

/-- `StmtNode` from ast.rs. -/
inductive StmtNode where
  | PrintStmt (e : ExprNode)
  | ExprStmt (e : ExprNode)
  | ErrStmt (msg : Str)
  | VarStmt (name : Str)
deriving DecidableEq, Repr

/-- Model of the derived Rust `Debug` rendering of a `TokenType`, used in the
parser's error format strings.  (The exact float rendering of a `Number`
payload is not semantically relevant to any claim; `toString` on `ℚ` stands
in for Rust's float `Debug`.) -/
def TokenType.debugStr : TokenType → Str
  | .LeftParen => "LeftParen"
  | .RightParen => "RightParen"
  | .LeftBrace => "LeftBrace"
  | .RightBrace => "RightBrace"
  | .Comma => "Comma"
  | .Dot => "Dot"
  | .Minus => "Minus"
  | .Plus => "Plus"
  | .Semicolon => "Semicolon"
  | .Slash => "Slash"
  | .Star => "Star"
  | .Bang => "Bang"
  | .BangEqual => "BangEqual"
  | .Equal => "Equal"
  | .EqualEqual => "EqualEqual"
  | .Greater => "Greater"
  | .GreaterEqual => "GreaterEqual"
  | .Less => "Less"
  | .LessEqual => "LessEqual"
  | .Identifier => "Identifier"
  | .String s => "String(\"" ++ s ++ "\")"
  | .Number n => "Number(" ++ toString n ++ ")"
  | .And => "And"
  | .Class => "Class"
  | .Else => "Else"
  | .False => "False"
  | .Fun => "Fun"
  | .For => "For"
  | .If => "If"
  | .Nil => "Nil"
  | .Or => "Or"
  | .Print => "Print"
  | .Return => "Return"
  | .Super => "Super"
  | .This => "This"
  | .True => "True"
  | .Var => "Var"
  | .While => "While"
  | .Eof => "Eof"

/-- `impl TryFrom<&Token> for Operator` (ast.rs lines 44-67): the
token-to-operator conversion table.  `GreaterEqual` and `LessEqual` fold into
`GreaterThan` and `LessThan`. -/
def Operator.try_from (token : Token) : Except Str Operator :=
  let line := token.line
  match token.token_type with
  | .Plus => .ok (.Add line)
  | .Minus => .ok (.Subtract line)
  | .Star => .ok (.Multiply line)
  | .Slash => .ok (.Divide line)
  | .Greater => .ok (.GreaterThan line)
  | .Less => .ok (.LessThan line)
  | .Equal => .ok (.Equal line)
  | .BangEqual => .ok (.NotEqual line)
  | .And => .ok (.And line)
  | .Or => .ok (.Or line)
  | .Bang => .ok (.Bang line)
  | .EqualEqual => .ok (.EqualEqual line)
  | .GreaterEqual => .ok (.GreaterThan line)
  | .LessEqual => .ok (.LessThan line)
  | tt => .error (tt.debugStr ++ " is not an operator")

/-- `Literal::is_falsy` (ast.rs lines 78-86).  Despite its name this is the
truthiness predicate used by unary `!`: every `Number` and `String` is truthy,
a `Boolean` is its own value, `Nil` is falsy. -/
def Literal.is_falsy : Literal → Bool
  | .Number _ => true
  | .String _ => true
  | .Boolean val => val
  | .Nil => false

/-- `Literal::is_equal` (ast.rs lines 87-97): structural equality. -/
def Literal.is_equal : Literal → Literal → Bool
  | .Number a, .Number b => a == b
  | .String a, .String b => a == b
  | .Boolean a, .Boolean b => a == b
  | .Nil, .Nil => true
  | .Nil, _ => false
  | _, .Nil => false
  | _, _ => false

/-! ## Evaluator — src/lox_lib/src/interpreter.rs -/

/-- Byte-wise (here: code-point-wise) lexicographic order on strings,
modelling Rust's derived `Ord`/`PartialOrd` comparison `l > r` / `l < r` on
`String`. -/
def charsLt : List Char → List Char → Bool
  | [], [] => false
  | [], _ :: _ => true
  | _ :: _, [] => false
  | a :: xs, b :: ys =>
    if a < b then true
    else if b < a then false
    else charsLt xs ys

/-- `l < r` on Rust `String`s. -/
def strLt (l r : Str) : Bool := charsLt l.toList r.toList

/-- Model of the derived Rust `Debug` rendering of an `Operator`. -/
def Operator.debugStr : Operator → Str
  | .Add line => "Add \x7b line: " ++ toString line ++ " \x7d"
  | .Subtract line => "Subtract \x7b line: " ++ toString line ++ " \x7d"
  | .Multiply line => "Multiply \x7b line: " ++ toString line ++ " \x7d"
  | .Divide line => "Divide \x7b line: " ++ toString line ++ " \x7d"
  | .GreaterThan line => "GreaterThan \x7b line: " ++ toString line ++ " \x7d"
  | .LessThan line => "LessThan \x7b line: " ++ toString line ++ " \x7d"
  | .Equal line => "Equal \x7b line: " ++ toString line ++ " \x7d"
  | .EqualEqual line => "EqualEqual \x7b line: " ++ toString line ++ " \x7d"
  | .NotEqual line => "NotEqual \x7b line: " ++ toString line ++ " \x7d"
  | .And line => "And \x7b line: " ++ toString line ++ " \x7d"
  | .Or line => "Or \x7b line: " ++ toString line ++ " \x7d"
  | .Bang line => "Bang \x7b line: " ++ toString line ++ " \x7d"

/-- The runtime errors of the evaluator.  In the source these are `anyhow`
strings; each constructor carries exactly the data interpolated into the
corresponding format string, and `RuntimeErr.message` renders the exact
string. -/
inductive RuntimeErr where
  /-- add_impl: `"the left side number {} operand is being added to non left number"`. -/
  | AddLeftNumber (left : ℚ) (line : ℕ)
  /-- add_impl: `"the left side string {} operand is being added to non left number"`. -/
  | AddLeftString (left : Str) (line : ℕ)
  /-- `"Operands must be two numbers or two strings"` (add_impl wildcard, GreaterThan, LessThan). -/
  | OperandsTwoNumbersOrStrings (line : ℕ)
  /-- `"Operands must be two numbers"` (Subtract, Multiply, Divide). -/
  | OperandsTwoNumbers (line : ℕ)
  /-- `"Unsupported operator"` (the `_` arm of visit_binary_expr; no line). -/
  | UnsupportedOperator
  /-- `"Unary operator '-' can only be applied to numbers on line {}"`. -/
  | UnaryMinusNonNumber (line : ℕ)
  /-- `"Unexpected operator of type {:?} in an Unary expression. Only"`. -/
  | UnexpectedUnaryOperator (operator : Operator)
deriving DecidableEq, Repr

/-- `Interpreter::report` (interpreter.rs line 71). -/
def Interpreter.report (line : ℕ) (err_where : Str) (message : Str) : Str :=
  "[line " ++ toString line ++ "] Error " ++ err_where ++ ": " ++ message

/-- `Interpreter::error` (interpreter.rs line 67). -/
def Interpreter.error (line : ℕ) (message : Str) : Str :=
  Interpreter.report line "" message

/-- The user-visible message of each runtime error, exactly as the source
formats it (the `anyhow!` payload). -/
def RuntimeErr.message : RuntimeErr → Str
  | .AddLeftNumber left line =>
    Interpreter.error line
      ("the left side number " ++ toString left ++ " operand is being added to non left number")
  | .AddLeftString left line =>
    Interpreter.error line
      ("the left side string " ++ left ++ " operand is being added to non left number")
  | .OperandsTwoNumbersOrStrings line =>
    Interpreter.error line "Operands must be two numbers or two strings"
  | .OperandsTwoNumbers line =>
    Interpreter.error line "Operands must be two numbers"
  | .UnsupportedOperator => "Unsupported operator"
  | .UnaryMinusNonNumber line =>
    "Unary operator '-' can only be applied to numbers on line " ++ toString line
  | .UnexpectedUnaryOperator operator =>
    "Unexpected operator of type " ++ operator.debugStr ++ " in an Unary expression. Only"

/-- Outcome of evaluating an expression: a value, a `RuntimeError`
(`Result::Err`), or a Rust panic (`todo!`). -/
inductive ERes where
  | ok (v : Literal)
  | err (e : RuntimeErr)
  | panicked (msg : Str)
deriving DecidableEq, Repr

/-- The panic message of `todo!("only expressions are supported!")`. -/
def todoMsg : Str := "not yet implemented: only expressions are supported!"

/-- `Interpreter::add_impl` (interpreter.rs lines 82-111). -/
def Interpreter.add_impl : Literal → Literal → ℕ → ERes
  | .Number l, .Number r, _ => .ok (.Number (l + r))
  | .String l, .String r, _ => .ok (.String (l ++ r))
  | .Number left, _, line => .err (.AddLeftNumber left line)
  | .String left, _, line => .err (.AddLeftString left line)
  | _, _, line => .err (.OperandsTwoNumbersOrStrings line)

/-- The operator dispatch of `Interpreter::visit_binary_expr` (interpreter.rs
lines 134-193), applied once both operands have been evaluated.  The `_` arm
of the source match covers exactly the remaining variant `Bang`. -/
def Interpreter.binary_op (operator : Operator) (left_literal right_literal : Literal) : ERes :=
  match operator with
  | .Add line => Interpreter.add_impl left_literal right_literal line
  | .Subtract line =>
    match left_literal, right_literal with
    | .Number l, .Number r => .ok (.Number (l - r))
    | _, _ => .err (.OperandsTwoNumbers line)
  | .Multiply line =>
    match left_literal, right_literal with
    | .Number l, .Number r => .ok (.Number (l * r))
    | _, _ => .err (.OperandsTwoNumbers line)
  | .Divide line =>
    match left_literal, right_literal with
    | .Number l, .Number r => .ok (.Number (l / r))
    | _, _ => .err (.OperandsTwoNumbers line)
  | .GreaterThan line =>
    match left_literal, right_literal with
    | .Number l, .Number r => .ok (.Boolean (decide (l > r)))
    | .String l, .String r => .ok (.Boolean (strLt r l))
    | _, _ => .err (.OperandsTwoNumbersOrStrings line)
  | .LessThan line =>
    match left_literal, right_literal with
    | .Number l, .Number r => .ok (.Boolean (decide (l < r)))
    | .String l, .String r => .ok (.Boolean (strLt l r))
    | _, _ => .err (.OperandsTwoNumbersOrStrings line)
  | .Equal _ => .panicked todoMsg
  | .EqualEqual _ => .ok (.Boolean (left_literal.is_equal right_literal))
  | .NotEqual _ => .ok (.Boolean (!left_literal.is_equal right_literal))
  | .And _ => .panicked todoMsg
  | .Or _ => .panicked todoMsg
  | .Bang _ => .err .UnsupportedOperator

/-- The operator dispatch of `Interpreter::visit_unary_expr` (interpreter.rs
lines 196-216), applied once the operand has been evaluated. -/
def Interpreter.unary_op (operator : Operator) (output : Literal) : ERes :=
  match operator with
  | .Bang _ => .ok (.Boolean (!output.is_falsy))
  | .Subtract line =>
    match output with
    | .Number value => .ok (.Number (-value))
    | _ => .err (.UnaryMinusNonNumber line)
  | op => .err (.UnexpectedUnaryOperator op)

/-- `ExprVisitor::visit_expr_node` instantiated at `Interpreter`: `Literal`
returns its payload, `Grouping` recurses, `UnaryExpr`/`BinaryExpr` evaluate
their operand(s) strictly (the `?` operators of visit_binary_expr /
visit_unary_expr) and then apply the operator dispatch above. -/
def visit_node : ExprNode → ERes
  | .Literal literal => .ok literal
  | .Grouping grouping => visit_node grouping
  | .UnaryExpr operator right =>
    match visit_node right with
    | .ok output => Interpreter.unary_op operator output
    | .err e => .err e
    | .panicked m => .panicked m
  | .BinaryExpr left operator right =>
    match visit_node left with
    | .ok left_literal =>
      match visit_node right with
      | .ok right_literal => Interpreter.binary_op operator left_literal right_literal
      | .err e => .err e
      | .panicked m => .panicked m
    | .err e => .err e
    | .panicked m => .panicked m

/-! ## Parser — src/lox_lib/src/parser.rs

The Rust parser mutates the token `Vec` in place (front removal) and returns
`Result`s; the embedding threads the remaining token list through every
outcome.  The `Parser` struct's `panic_mode` and `errors` fields are
write-only diagnostics: they are set/pushed by `match_literals` via
`send_err` but never read on any code path, so they are not threaded here.

The source's recursion is executed directly by Rust; the embedding makes the
recursion depth explicit with a `fuel` parameter that every function
decrements, with a distinct `fuelOut` outcome when it is exhausted.  `fuelOut`
is disjoint from every genuine result, so any computation producing `ok`,
`err` or `panicked` is the result of the source's recursion. -/

/-- Outcome of a parser computation: the result together with the remaining
token queue (also on `err`, since the Rust `Vec` keeps its mutations when an
`Err` propagates), a Rust panic, or fuel exhaustion. -/
inductive PRes (α : Type) where
  | ok (a : α) (tokens : List Token)
  | err (msg : Str) (tokens : List Token)
  | panicked (msg : Str)
  | fuelOut
deriving DecidableEq, Repr

/-- `Parser::match_token` (parser.rs line 157). -/
def Parser.match_token (token_type : TokenType) (token : Token) : Bool :=
  token.token_type == token_type

/-- `Parser::consume` (parser.rs lines 163-182): removes the head token when
it matches, errors (leaving the queue unchanged) otherwise; indexing an empty
queue is a panic (`expect`). -/
def Parser.consume (expected_token : TokenType) : List Token → PRes Unit
  | [] => .panicked "Expected token in fn consume"
  | t :: rest =>
    if Parser.match_token expected_token t then
      .ok () rest
    else
      .err ("Expected token " ++ expected_token.debugStr ++ " but got "
            ++ t.token_type.debugStr ++ " token") (t :: rest)

/-- `Parser::match_operator_tokens` (parser.rs lines 203-225): when the head
token's kind is in `match_tokens`, convert it (`Operator::try_from(..).unwrap()`
— a panic when the conversion fails) and remove it from the queue. -/
def Parser.match_operator_tokens (match_tokens : List TokenType) :
    List Token → PRes (Option Operator)
  | [] => .ok none []
  | token :: rest =>
    if match_tokens.contains token.token_type then
      match Operator.try_from token with
      | .ok operator => .ok (some operator) rest
      | .error e => .panicked e
    else
      .ok none (token :: rest)

/-- The `while let Some(operator)` loop of `Parser::binary_expression_match`
(parser.rs lines 53-60): left-associative folding into `BinaryExpr`. -/
def Parser.binMatchLoop (precedence_fn : List Token → PRes ExprNode)
    (token_types : List TokenType) : ℕ → ExprNode → List Token → PRes ExprNode
  | 0, _, _ => .fuelOut
  | fuel + 1, node, tokens =>
    match Parser.match_operator_tokens token_types tokens with
    | .ok (some operator) tokens1 =>
      match precedence_fn tokens1 with
      | .ok right tokens2 =>
        Parser.binMatchLoop precedence_fn token_types fuel
          (.BinaryExpr node operator right) tokens2
      | .err e ts => .err e ts
      | .panicked m => .panicked m
      | .fuelOut => .fuelOut
    | .ok none tokens1 => .ok node tokens1
    | .err e ts => .err e ts
    | .panicked m => .panicked m
    | .fuelOut => .fuelOut

/-- `Parser::binary_expression_match` (parser.rs lines 45-62). -/
def Parser.binary_expression_match (precedence_fn : List Token → PRes ExprNode)
    (token_types : List TokenType) (fuel : ℕ) (tokens : List Token) : PRes ExprNode :=
  match precedence_fn tokens with
  | .ok node tokens1 => Parser.binMatchLoop precedence_fn token_types fuel node tokens1
  | .err e ts => .err e ts
  | .panicked m => .panicked m
  | .fuelOut => .fuelOut

mutual

/-- `Parser::expression` (parser.rs line 64). -/
def Parser.expression : ℕ → List Token → PRes ExprNode
  | 0, _ => .fuelOut
  | fuel + 1, tokens => Parser.equality fuel tokens

/-- `Parser::equality`: `equality -> comparison ( ("!=" | "==") comparison )*`. -/
def Parser.equality : ℕ → List Token → PRes ExprNode
  | 0, _ => .fuelOut
  | fuel + 1, tokens =>
    Parser.binary_expression_match (Parser.comparison fuel)
      [.BangEqual, .EqualEqual] fuel tokens

/-- `Parser::comparison`: `comparison -> term ( (">" | "<" | ">=" | "<=") term )*`. -/
def Parser.comparison : ℕ → List Token → PRes ExprNode
  | 0, _ => .fuelOut
  | fuel + 1, tokens =>
    Parser.binary_expression_match (Parser.term fuel)
      [.Less, .Greater, .LessEqual, .GreaterEqual] fuel tokens

/-- `Parser::term`: `term -> factor ( ("+" | "-") factor )*`. -/
def Parser.term : ℕ → List Token → PRes ExprNode
  | 0, _ => .fuelOut
  | fuel + 1, tokens =>
    Parser.binary_expression_match (Parser.factor fuel) [.Plus, .Minus] fuel tokens

/-- `Parser::factor`: `factor -> unary ( ("*" | "/") unary )*`. -/
def Parser.factor : ℕ → List Token → PRes ExprNode
  | 0, _ => .fuelOut
  | fuel + 1, tokens =>
    Parser.binary_expression_match (Parser.unary fuel) [.Star, .Slash] fuel tokens

/-- `Parser::unary` (parser.rs lines 104-116): `unary -> ("!" | "-") unary | primary`. -/
def Parser.unary : ℕ → List Token → PRes ExprNode
  | 0, _ => .fuelOut
  | fuel + 1, tokens =>
    match Parser.match_operator_tokens [.Bang, .Minus] tokens with
    | .ok (some operator) tokens1 =>
      match Parser.unary fuel tokens1 with
      | .ok right tokens2 => .ok (.UnaryExpr operator right) tokens2
      | .err e ts => .err e ts
      | .panicked m => .panicked m
      | .fuelOut => .fuelOut
    | .ok none tokens1 => Parser.primary fuel tokens1
    | .err e ts => .err e ts
    | .panicked m => .panicked m
    | .fuelOut => .fuelOut

/-- `Parser::primary` (parser.rs lines 119-121). -/
def Parser.primary : ℕ → List Token → PRes ExprNode
  | 0, _ => .fuelOut
  | fuel + 1, tokens => Parser.match_literals fuel tokens

/-- `Parser::match_literals` (parser.rs lines 227-275): literal tokens become
`Literal` nodes; `(` parses a parenthesised expression requiring `)`; the
missing-`)` case falls through to the same "unsupported token" error as any
other token (after recording write-only diagnostics via `send_err`); indexing
`tokens[0]` on an empty queue is a panic. -/
def Parser.match_literals : ℕ → List Token → PRes ExprNode
  | 0, _ => .fuelOut
  | fuel + 1, tokens =>
    let node : Option ExprNode :=
      match tokens.head? with
      | some token =>
        match token.token_type with
        | .Number number => some (.Literal (.Number number))
        | .String string => some (.Literal (.String string))
        | .False => some (.Literal (.Boolean false))
        | .True => some (.Literal (.Boolean true))
        | .Nil => some (.Literal .Nil)
        | _ => none
      | none => none
    match node with
    | some literal_node => .ok literal_node tokens.tail
    | none =>
      match tokens with
      | [] => .panicked "index out of bounds: tokens[0] on an empty token vector"
      | token :: rest =>
        if token.token_type = .LeftParen then
          match Parser.expression fuel rest with
          | .ok expr tokens2 =>
            match tokens2 with
            | [] => .panicked "index out of bounds: tokens[0] on an empty token vector"
            | token2 :: rest2 =>
              if token2.token_type = .RightParen then
                .ok (.Grouping expr) rest2
              else
                .err ("unsupported token " ++ token2.token_type.debugStr ++ " in expression")
                  (token2 :: rest2)
          | .err e ts => .err e ts
          | .panicked m => .panicked m
          | .fuelOut => .fuelOut
        else
          .err ("unsupported token " ++ token.token_type.debugStr ++ " in expression")
            (token :: rest)

end

/-- `Parser::print_stmt` (parser.rs lines 123-130): blindly removes the
`print` token, parses an expression, and requires a `;`. -/
def Parser.print_stmt (fuel : ℕ) : List Token → PRes StmtNode
  | [] => .panicked "removal index (is 0) should be < len (is 0)"
  | _ :: rest =>
    match Parser.expression fuel rest with
    | .ok expr tokens2 =>
      match Parser.consume .Semicolon tokens2 with
      | .ok _ tokens3 => .ok (.PrintStmt expr) tokens3
      | .err _ tokens3 => .err "Expected ';' after a statement" tokens3
      | .panicked m => .panicked m
      | .fuelOut => .fuelOut
    | .err e ts => .err e ts
    | .panicked m => .panicked m
    | .fuelOut => .fuelOut

/-- `Parser::statement` (parser.rs lines 133-154): a `print` head dispatches
to `print_stmt`, otherwise an expression statement is parsed; parse errors
are converted to `ErrStmt` carrying the error's message; an empty queue is a
panic (`expect("No tokens in statement")`). -/
def Parser.statement (fuel : ℕ) (tokens : List Token) : PRes StmtNode :=
  match tokens.head? with
  | none => .panicked "No tokens in statement"
  | some token =>
    if Parser.match_token .Print token then
      match Parser.print_stmt fuel tokens with
      | .ok s ts => .ok s ts
      | .err e ts => .ok (.ErrStmt e) ts
      | .panicked m => .panicked m
      | .fuelOut => .fuelOut
    else
      match Parser.expression fuel tokens with
      | .ok expr ts =>
        match Parser.consume .Semicolon ts with
        | .ok _ ts2 => .ok (.ExprStmt expr) ts2
        | .err _ ts2 => .ok (.ErrStmt "Expected ';' after an expression") ts2
        | .panicked m => .panicked m
        | .fuelOut => .fuelOut
      | .err e ts => .ok (.ErrStmt e) ts
      | .panicked m => .panicked m
      | .fuelOut => .fuelOut

/-- `Parser::parse` (parser.rs lines 185-193): `while tokens.len() > 0` parse
one statement and push it. -/
def Parser.parse : ℕ → List Token → PRes (List StmtNode)
  | 0, _ => .fuelOut
  | fuel + 1, tokens =>
    if tokens.length > 0 then
      match Parser.statement fuel tokens with
      | .ok s ts =>
        match Parser.parse fuel ts with
        | .ok ss ts2 => .ok (s :: ss) ts2
        | .err e ts2 => .err e ts2
        | .panicked m => .panicked m
        | .fuelOut => .fuelOut
      | .err e ts => .err e ts
      | .panicked m => .panicked m
      | .fuelOut => .fuelOut
    else
      .ok [] tokens

/-! ## Derived definitions used by the claims -/

/-- Whether an evaluation outcome is a `RuntimeError` result returned to the
caller (as opposed to a value or a panic). -/
def ERes.isErr : ERes → Bool
  | .err _ => true
  | .ok _ => false
  | .panicked _ => false

/-- The operators that the parser can ever place in an `ExprNode`:
`Equal`, `And` and `Or` are excluded. -/
def Operator.allowed : Operator → Bool
  | .Equal _ => false
  | .And _ => false
  | .Or _ => false
  | _ => true

/-- Every operator occurring in the expression is `allowed`. -/
def ExprNode.opsAllowed : ExprNode → Bool
  | .Literal _ => true
  | .Grouping child => child.opsAllowed
  | .UnaryExpr operator right => operator.allowed && right.opsAllowed
  | .BinaryExpr left operator right =>
    left.opsAllowed && operator.allowed && right.opsAllowed

/-- Every operator occurring in the statement is `allowed`. -/
def StmtNode.opsAllowed : StmtNode → Bool
  | .PrintStmt e => e.opsAllowed
  | .ExprStmt e => e.opsAllowed
  | .ErrStmt _ => true
  | .VarStmt _ => true

/-- The token kinds the parser's levels hand to `match_operator_tokens`. -/
def parserOperatorTokenTypes : List TokenType :=
  [.BangEqual, .EqualEqual, .Less, .Greater, .LessEqual, .GreaterEqual,
   .Plus, .Minus, .Star, .Slash, .Bang]

/-! ## Theorems -/

/-- A successful `List.lookup` returns one of the list's values. -/
theorem lookup_mem_snd {α β : Type} [BEq α] :
    ∀ (l : List (α × β)) (a : α) (b : β), l.lookup a = some b → b ∈ l.map Prod.snd := by
  intro l a b h
  induction l with
  | nil => simp [List.lookup] at h
  | cons x xs ih =>
    rw [List.lookup] at h
    split at h
    · simp at h; simp [h]
    · simpa using Or.inr (ih h)

/-- `check_keyword` never produces an `Eof` token: the keyword table contains
no `Eof`, and the fallback is `Identifier`. -/
theorem check_keyword_ne_eof (val : Str) (line_number : ℕ) :
    (check_keyword val line_number).token_type ≠ .Eof := by
  unfold check_keyword
  split
  case h_1 tt heq =>
    have hmem := lookup_mem_snd _ _ _ heq
    intro hcon
    simp only [Token.new] at hcon
    subst hcon
    simp [RESERVED_KEYWORDS] at hmem
  case h_2 => simp [Token.new]

/-- A token produced by the string-literal loop is a `String` token. -/
theorem lexStringLoop_ne_eof (lexeme : Str) (line_number : ℕ) :
    ∀ (cs : List Char) (val : Str) (tok : Token) (r : List Char),
      lexStringLoop lexeme line_number val cs = .ok (tok, r) → tok.token_type ≠ .Eof := by
  intro cs
  induction cs with
  | nil => intro val tok r h; simp [lexStringLoop] at h
  | cons c rest ih =>
    intro val tok r h
    simp only [lexStringLoop] at h
    split at h
    · simp only [LRes.ok.injEq, Prod.mk.injEq] at h
      obtain ⟨h1, -⟩ := h
      rw [← h1]
      simp [Token.new]
    · exact ih _ _ _ h

/-- A token produced by the number-literal loop is a `Number` token. -/
theorem lexNumberLoop_ne_eof (line_number : ℕ) :
    ∀ (cs : List Char) (val : Str) (tok : Token) (r : List Char),
      lexNumberLoop line_number val cs = .ok (tok, r) → tok.token_type ≠ .Eof := by
  intro cs
  induction cs with
  | nil =>
    intro val tok r h
    simp only [lexNumberLoop] at h
    split at h
    · simp only [LRes.ok.injEq, Prod.mk.injEq] at h
      obtain ⟨h1, -⟩ := h
      rw [← h1]
      simp [Token.new]
    · simp only [reduceCtorEq] at h
  | cons c rest ih =>
    intro val tok r h
    simp only [lexNumberLoop] at h
    split at h
    · split at h
      · simp only [LRes.ok.injEq, Prod.mk.injEq] at h
        obtain ⟨h1, -⟩ := h
        rw [← h1]
        simp [Token.new]
      · simp only [reduceCtorEq] at h
    · exact ih _ _ _ h

/-- A token produced by the identifier loop is a keyword or `Identifier`. -/
theorem lexIdentLoop_ne_eof (line_number : ℕ) :
    ∀ (cs : List Char) (val : Str),
      (lexIdentLoop line_number val cs).1.token_type ≠ .Eof := by
  intro cs
  induction cs with
  | nil => intro val; simp only [lexIdentLoop]; exact check_keyword_ne_eof _ _
  | cons c rest ih =>
    intro val
    simp only [lexIdentLoop]
    split
    · exact ih _
    · exact check_keyword_ne_eof _ _

/-- Inversion for `consToken`. -/
theorem consToken_ok {tok : Token} {res : LRes (List Token)} {ts : List Token}
    (h : consToken tok res = .ok ts) :
    ∃ ts2, res = .ok ts2 ∧ ts = tok :: ts2 := by
  cases res with
  | ok a => exact ⟨a, rfl, by simpa [consToken] using h.symm⟩
  | err e => simp [consToken] at h
  | panicked m => simp [consToken] at h

/-- `Lexer::lex_string_literals` only produces `String` tokens. -/
theorem lex_string_literals_ne_eof {lexeme : Str} {cs : List Char} {line_number : ℕ}
    {tok : Token} {r : List Char}
    (h : lex_string_literals lexeme cs line_number = .ok (tok, r)) :
    tok.token_type ≠ .Eof :=
  lexStringLoop_ne_eof lexeme line_number cs "" tok r h

/-- `Lexer::lex_number_literals` only produces `Number` tokens. -/
theorem lex_number_literals_ne_eof {lexeme : Str} {cs : List Char} {line_number : ℕ}
    {tok : Token} {r : List Char}
    (h : lex_number_literals lexeme cs line_number = .ok (tok, r)) :
    tok.token_type ≠ .Eof :=
  lexNumberLoop_ne_eof line_number cs lexeme tok r h

/-- `Lexer::lex_identifier_literals` only produces keyword or `Identifier`
tokens. -/
theorem lex_identifier_literals_ne_eof {lexeme : Str} {cs : List Char} {line_number : ℕ}
    {tok : Token} {r : List Char}
    (h : lex_identifier_literals lexeme cs line_number = .ok (tok, r)) :
    tok.token_type ≠ .Eof := by
  simp only [lex_identifier_literals, LRes.ok.injEq] at h
  have h2 := lexIdentLoop_ne_eof line_number cs lexeme
  rw [h] at h2
  exact h2

/-- No token produced by `Lexer::lex_chars` is an `Eof` token: the end-of-file
marker is appended only by `Lexer::lex` itself. -/
theorem lexChars_no_eof :
    ∀ (cs : List Char) (line_number : ℕ) (ts : List Token),
      lexChars cs line_number = .ok ts → ∀ t ∈ ts, t.token_type ≠ .Eof := by
  intro cs line_number
  induction cs, line_number using lexChars.induct
  all_goals intro ts h
  all_goals simp only [lexChars] at h
  all_goals try simp only [*, reduceIte] at h
  all_goals try split at h
  all_goals try split at h
  all_goals first
    | (simp_all; done)
    | (try simp_all
       obtain ⟨ts2, hrec, rfl⟩ := consToken_ok h
       intro t ht
       rcases List.mem_cons.mp ht with rfl | hmem
       · first
         | simp [Token.new]
         | solve_by_elim [lex_string_literals_ne_eof, lex_number_literals_ne_eof,
                          lex_identifier_literals_ne_eof]
       · solve_by_elim)

/-- No token produced by the per-line traversal of `Lexer::lex` is `Eof`. -/
theorem lexLines_no_eof :
    ∀ (ls : List (List Char)) (n : ℕ) (ts : List Token),
      lexLines ls n = .ok ts → ∀ t ∈ ts, t.token_type ≠ .Eof := by
  intro ls
  induction ls with
  | nil =>
    intro n ts h
    simp only [lexLines, LRes.ok.injEq] at h
    simp [← h]
  | cons l rest ih =>
    intro n ts h
    simp only [lexLines] at h
    cases hc : lexChars l n with
    | ok ts1 =>
      simp only [hc] at h
      cases hr : lexLines rest (n + 1) with
      | ok ts2 =>
        simp only [hr, LRes.ok.injEq] at h
        subst h
        intro t ht
        rcases List.mem_append.mp ht with h1 | h2
        · exact lexChars_no_eof l n ts1 hc t h1
        · exact ih (n + 1) ts2 hr t h2
      | err e => simp [hr] at h
      | panicked m => simp [hr] at h
    | err e => simp [hc] at h
    | panicked m => simp [hc] at h

/-- **C9.** For every input on which `lex` succeeds, the token sequence is a
body free of `Eof` tokens followed by exactly one `Eof` token, whose line is
the line of the last body token, or `0` when the body is empty. -/
theorem claim_C9 :
    ∀ (input : List (List Char)) (tokens : List Token),
      lex input = .ok tokens →
      ∃ body : List Token,
        tokens = body ++ [Token.new .Eof ""
          (match body.getLast? with | some t => t.line | none => 0)] ∧
        ∀ t ∈ body, t.token_type ≠ .Eof := by
  intro input tokens h
  simp only [lex] at h
  cases hl : lexLines input 1 with
  | ok ts =>
    simp only [hl, LRes.ok.injEq] at h
    exact ⟨ts, h.symm, lexLines_no_eof input 1 ts hl⟩
  | err e => simp [hl] at h
  | panicked m => simp [hl] at h

/-- **C9 witness**: the concrete input `a+b`. -/
theorem claim_C9_witness :
    lex [['a', '+', 'b']]
      = .ok [Token.new .Identifier "a" 1, Token.new .Plus "+" 1,
             Token.new .Identifier "b" 1, Token.new .Eof "" 1] ∧
    ∃ body : List Token,
      [Token.new .Identifier "a" 1, Token.new .Plus "+" 1,
       Token.new .Identifier "b" 1, Token.new .Eof "" 1]
        = body ++ [Token.new .Eof ""
            (match body.getLast? with | some t => t.line | none => 0)] ∧
      ∀ t ∈ body, t.token_type ≠ .Eof := by
  have hlex : lex [['a', '+', 'b']]
      = .ok [Token.new .Identifier "a" 1, Token.new .Plus "+" 1,
             Token.new .Identifier "b" 1, Token.new .Eof "" 1] := by
    simp [lex, lexLines, lexChars, lex_identifier_literals, lexIdentLoop, check_keyword,
          RESERVED_KEYWORDS, Token.new, consToken]
    decide
  exact ⟨hlex, claim_C9 [['a', '+', 'b']] _ hlex⟩

/-- **C2.** For every token whose kind is `GreaterEqual`, `Operator::try_from`
yields `GreaterThan` carrying the token's line, and for `LessEqual` it yields
`LessThan`; consequently a parsed `a >= b` (resp. `a <= b`) evaluates to the
strict comparison `a > b` (resp. `a < b`). -/
theorem claim_C2 :
    (∀ (line : ℕ) (lexeme : Option Str),
      Operator.try_from ⟨.GreaterEqual, line, lexeme⟩ = .ok (.GreaterThan line)) ∧
    (∀ (line : ℕ) (lexeme : Option Str),
      Operator.try_from ⟨.LessEqual, line, lexeme⟩ = .ok (.LessThan line)) ∧
    (∀ a b : ℚ,
      Parser.expression 100
          [Token.new (.Number a) "a" 1, Token.new .GreaterEqual ">=" 1,
           Token.new (.Number b) "b" 1]
        = .ok (.BinaryExpr (.Literal (.Number a)) (.GreaterThan 1) (.Literal (.Number b))) [] ∧
      visit_node (.BinaryExpr (.Literal (.Number a)) (.GreaterThan 1) (.Literal (.Number b)))
        = .ok (.Boolean (decide (a > b)))) ∧
    (∀ a b : ℚ,
      Parser.expression 100
          [Token.new (.Number a) "a" 1, Token.new .LessEqual "<=" 1,
           Token.new (.Number b) "b" 1]
        = .ok (.BinaryExpr (.Literal (.Number a)) (.LessThan 1) (.Literal (.Number b))) [] ∧
      visit_node (.BinaryExpr (.Literal (.Number a)) (.LessThan 1) (.Literal (.Number b)))
        = .ok (.Boolean (decide (a < b)))) :=
  ⟨fun _ _ => rfl, fun _ _ => rfl,
   fun _ _ => ⟨rfl, rfl⟩, fun _ _ => ⟨rfl, rfl⟩⟩

/-- **C3.** The truthiness predicate (`Literal::is_falsy`) is `true` for every
`Number` and every `String`, is the boolean's own value for `Boolean`, and is
`false` for `Nil`; consequently `!n` evaluates to `Boolean(false)` for every
number `n` — in particular `!0` is `false`. -/
theorem claim_C3 :
    (∀ n : ℚ, (Literal.Number n).is_falsy = true) ∧
    (∀ s : Str, (Literal.String s).is_falsy = true) ∧
    (∀ b : Bool, (Literal.Boolean b).is_falsy = b) ∧
    Literal.Nil.is_falsy = false ∧
    (∀ (n : ℚ) (line : ℕ),
      visit_node (.UnaryExpr (.Bang line) (.Literal (.Number n))) = .ok (.Boolean false)) ∧
    visit_node (.UnaryExpr (.Bang 1) (.Literal (.Number 0))) = .ok (.Boolean false) :=
  ⟨fun _ => rfl, fun _ => rfl, fun _ => rfl, rfl, fun _ _ => rfl, rfl⟩

/-- **C4.** Evaluation of the code at the failing input: a string literal
opened by `"` on the line `"ab'` is accepted as terminated by the single
quote `'` (payload `ab`), where the claim requires an unterminated-string
error; only when no quote character of either kind follows does lexing fail
with the unterminated-string error. -/
theorem claim_C4 :
    lex [['"', 'a', 'b', '\'']]
      = .ok [Token.new (.String "ab") "\"ab'" 1, Token.new .Eof "" 1] ∧
    lex [['"', 'a', 'b']] = .err (.UnterminatedString "ab" 1) := by
  constructor <;>
    simp [lex, lexLines, lexChars, lex_string_literals, lexStringLoop, Token.new, consToken]
  all_goals decide

/-- **C5.** Evaluation of the code at the failing input: the numeric literal
`1.2.3` followed by a space makes `lex` panic (the mid-line return path calls
`val.parse::<f32>().unwrap()`), while the same literal at line end returns
the `InvalidNumber` lexical error. -/
theorem claim_C5 :
    lex [['1', '.', '2', '.', '3', ' ']]
      = .panicked "called Result::unwrap() on an Err value: ParseFloatError" ∧
    lex [['1', '.', '2', '.', '3']] = .err (.InvalidNumber "1.2.3" 1) := by
  constructor <;>
    simp [lex, lexLines, lexChars, lex_number_literals, lexNumberLoop, parseF32,
          isF32Parseable, Token.new, consToken]
  all_goals decide

/-- **C6 counterexample.** Evaluating a `BinaryExpr` whose operator is
`Equal`, `And`, or `Or` on fully evaluated operands panics (`todo!`); it is
not an error result returned to the caller, refuting the claim at these
concrete inputs. -/
theorem claim_C6_counterexample :
    visit_node (.BinaryExpr (.Literal .Nil) (.Equal 1) (.Literal .Nil)) = .panicked todoMsg ∧
    (visit_node (.BinaryExpr (.Literal .Nil) (.Equal 1) (.Literal .Nil))).isErr = false ∧
    visit_node (.BinaryExpr (.Literal (.Boolean true)) (.And 1) (.Literal (.Boolean true)))
      = .panicked todoMsg ∧
    (visit_node (.BinaryExpr (.Literal (.Boolean true)) (.And 1) (.Literal (.Boolean true)))).isErr
      = false ∧
    visit_node (.BinaryExpr (.Literal (.Boolean false)) (.Or 1) (.Literal (.Boolean true)))
      = .panicked todoMsg ∧
    (visit_node (.BinaryExpr (.Literal (.Boolean false)) (.Or 1) (.Literal (.Boolean true)))).isErr
      = false :=
  ⟨rfl, rfl, rfl, rfl, rfl, rfl⟩

/-- **C6 (amended).** For every pair of fully evaluated operand values,
evaluating a `BinaryExpr` whose operator is `Equal`, `And`, or `Or` panics
with the `todo!` not-implemented message — aborting evaluation rather than
short-circuiting, producing a value, or returning an error result. -/
theorem claim_C6 :
    ∀ (vl vr : Literal) (line : ℕ),
      visit_node (.BinaryExpr (.Literal vl) (.Equal line) (.Literal vr)) = .panicked todoMsg ∧
      visit_node (.BinaryExpr (.Literal vl) (.And line) (.Literal vr)) = .panicked todoMsg ∧
      visit_node (.BinaryExpr (.Literal vl) (.Or line) (.Literal vr)) = .panicked todoMsg :=
  fun _ _ _ => ⟨rfl, rfl, rfl⟩

/-- On the token queue `[Eof]` (the lexer's output for empty input),
`Parser::statement` either runs out of fuel or returns an `ErrStmt` leaving
the queue unchanged: nothing ever consumes the `Eof` token. -/
theorem statement_on_eof :
    ∀ f : ℕ,
      Parser.statement f [Token.new .Eof "" 0] = .fuelOut ∨
      Parser.statement f [Token.new .Eof "" 0]
        = .ok (.ErrStmt "unsupported token Eof in expression") [Token.new .Eof "" 0] := by
  intro f
  match f with
  | 0 => exact Or.inl rfl
  | 1 => exact Or.inl rfl
  | 2 => exact Or.inl rfl
  | 3 => exact Or.inl rfl
  | 4 => exact Or.inl rfl
  | 5 => exact Or.inl rfl
  | 6 => exact Or.inl rfl
  | 7 => exact Or.inl rfl
  | f + 8 => exact Or.inr rfl

/-- **C1.** Evaluation of the code at the failing input: on the token queue
`[Eof]` — the lexer's output for empty input, and the tail of every lexed
token sequence — `Parser::parse` never completes within any recursion budget:
each iteration of `while tokens.len() > 0` produces an `ErrStmt` without
consuming the `Eof` token, so the loop never exits (the claimed termination
with an ordered statement sequence fails). -/
theorem claim_C1 :
    ∀ fuel : ℕ, Parser.parse fuel [Token.new .Eof "" 0] = .fuelOut := by
  intro fuel
  induction fuel with
  | zero => rfl
  | succ f ih =>
    rcases statement_on_eof f with h | h <;>
      simp [Parser.parse, h, ih]

/-- **C7.** Precedence and associativity: the tokens of `1 + 2 * -3` parse to
`Add(1, Multiply(2, Unary-(3)))`, and the tokens of `6 / 3 - 1` parse to
`Subtract(Divide(6, 3), 1)`. -/
theorem claim_C7 :
    Parser.expression 100
        [Token.new (.Number 1) "1" 1, Token.new .Plus "+" 1, Token.new (.Number 2) "2" 1,
         Token.new .Star "*" 1, Token.new .Minus "-" 1, Token.new (.Number 3) "3" 1]
      = .ok (.BinaryExpr (.Literal (.Number 1)) (.Add 1)
              (.BinaryExpr (.Literal (.Number 2)) (.Multiply 1)
                (.UnaryExpr (.Subtract 1) (.Literal (.Number 3))))) [] ∧
    Parser.expression 100
        [Token.new (.Number 6) "6" 1, Token.new .Slash "/" 1, Token.new (.Number 3) "3" 1,
         Token.new .Minus "-" 1, Token.new (.Number 1) "1" 1]
      = .ok (.BinaryExpr
              (.BinaryExpr (.Literal (.Number 6)) (.Divide 1) (.Literal (.Number 3)))
              (.Subtract 1) (.Literal (.Number 1))) [] :=
  ⟨rfl, rfl⟩

/-- **C8 counterexample.** With a `Boolean` left operand, `Add` fails with the
generic `"Operands must be two numbers or two strings"` message, which does
not name the left operand (it carries only the line), refuting the claim's
"message names the left operand" for this pairing. -/
theorem claim_C8_counterexample :
    visit_node (.BinaryExpr (.Literal (.Boolean true)) (.Add 7) (.Literal (.Number 1)))
      = .err (.OperandsTwoNumbersOrStrings 7) ∧
    (RuntimeErr.OperandsTwoNumbersOrStrings 7).message
      = "[line 7] Error : Operands must be two numbers or two strings" :=
  ⟨rfl, rfl⟩

/-- **C8 (amended).** `Add` yields `Number(l + r)` on two `Number`s and
`String` concatenation on two `String`s; every other pairing fails with a
`RuntimeError` carrying the operator's line, whose message names the left
operand when the left operand is a `Number` or a `String`, and is the generic
`"Operands must be two numbers or two strings"` when the left operand is a
`Boolean` or `Nil`. -/
theorem claim_C8 :
    ∀ line : ℕ,
    (∀ l r : ℚ,
      visit_node (.BinaryExpr (.Literal (.Number l)) (.Add line) (.Literal (.Number r)))
        = .ok (.Number (l + r))) ∧
    (∀ l r : Str,
      visit_node (.BinaryExpr (.Literal (.String l)) (.Add line) (.Literal (.String r)))
        = .ok (.String (l ++ r))) ∧
    (∀ (l : ℚ) (s : Str),
      visit_node (.BinaryExpr (.Literal (.Number l)) (.Add line) (.Literal (.String s)))
        = .err (.AddLeftNumber l line)) ∧
    (∀ (l : ℚ) (b : Bool),
      visit_node (.BinaryExpr (.Literal (.Number l)) (.Add line) (.Literal (.Boolean b)))
        = .err (.AddLeftNumber l line)) ∧
    (∀ l : ℚ,
      visit_node (.BinaryExpr (.Literal (.Number l)) (.Add line) (.Literal .Nil))
        = .err (.AddLeftNumber l line)) ∧
    (∀ (s : Str) (r : ℚ),
      visit_node (.BinaryExpr (.Literal (.String s)) (.Add line) (.Literal (.Number r)))
        = .err (.AddLeftString s line)) ∧
    (∀ (s : Str) (b : Bool),
      visit_node (.BinaryExpr (.Literal (.String s)) (.Add line) (.Literal (.Boolean b)))
        = .err (.AddLeftString s line)) ∧
    (∀ s : Str,
      visit_node (.BinaryExpr (.Literal (.String s)) (.Add line) (.Literal .Nil))
        = .err (.AddLeftString s line)) ∧
    (∀ (b : Bool) (r : Literal),
      visit_node (.BinaryExpr (.Literal (.Boolean b)) (.Add line) (.Literal r))
        = .err (.OperandsTwoNumbersOrStrings line)) ∧
    (∀ r : Literal,
      visit_node (.BinaryExpr (.Literal .Nil) (.Add line) (.Literal r))
        = .err (.OperandsTwoNumbersOrStrings line)) := by
  intro line
  refine ⟨fun _ _ => rfl, fun _ _ => rfl, fun _ _ => rfl, fun _ _ => rfl, fun _ => rfl,
          fun _ _ => rfl, fun _ _ => rfl, fun _ => rfl, ?_, ?_⟩
  · intro b r; cases r <;> rfl
  · intro r; cases r <;> rfl

/-- `List.contains` (with a lawful `BEq`) implies membership. -/
theorem contains_mem {α : Type} [DecidableEq α] {l : List α} {a : α}
    (h : l.contains a = true) : a ∈ l := by simpa using h

/-- `Operator::try_from` on any of the token kinds the parser matches as
operators yields an `allowed` operator (never `Equal`, `And` or `Or`). -/
theorem try_from_allowed {token : Token} {operator : Operator}
    (hmem : token.token_type ∈ parserOperatorTokenTypes)
    (h : Operator.try_from token = .ok operator) : operator.allowed = true := by
  simp only [parserOperatorTokenTypes, List.mem_cons, List.not_mem_nil, or_false] at hmem
  rcases hmem with h1 | h1 | h1 | h1 | h1 | h1 | h1 | h1 | h1 | h1 | h1 <;>
    (simp only [Operator.try_from, h1, Except.ok.injEq] at h
     rw [← h]
     rfl)

/-- An operator returned by `match_operator_tokens` for any of the
parser's operator token sets is `allowed`. -/
theorem match_operator_tokens_allowed {tts : List TokenType}
    (hsub : ∀ tt ∈ tts, tt ∈ parserOperatorTokenTypes) :
    ∀ {tokens : List Token} {operator : Operator} {rest : List Token},
      Parser.match_operator_tokens tts tokens = .ok (some operator) rest →
      operator.allowed = true := by
  intro tokens operator rest h
  cases tokens with
  | nil => simp [Parser.match_operator_tokens] at h
  | cons token rest2 =>
    simp only [Parser.match_operator_tokens] at h
    by_cases hcont : tts.contains token.token_type = true
    · simp only [hcont, if_true] at h
      cases htf : Operator.try_from token with
      | ok op2 =>
        simp only [htf, PRes.ok.injEq, Option.some.injEq] at h
        obtain ⟨rfl, -⟩ := h
        exact try_from_allowed (hsub _ (contains_mem hcont)) htf
      | error e => simp [htf] at h
    · simp only [hcont, if_false, Bool.false_eq_true] at h
      simp at h

/-- The binary-expression loop preserves the `opsAllowed` invariant. -/
theorem binMatchLoop_allowed {precedence_fn : List Token → PRes ExprNode}
    {tts : List TokenType}
    (hsub : ∀ tt ∈ tts, tt ∈ parserOperatorTokenTypes)
    (hpre : ∀ ts e ts2, precedence_fn ts = .ok e ts2 → e.opsAllowed = true) :
    ∀ (fuel : ℕ) (node : ExprNode) (tokens : List Token) (e : ExprNode) (ts2 : List Token),
      node.opsAllowed = true →
      Parser.binMatchLoop precedence_fn tts fuel node tokens = .ok e ts2 →
      e.opsAllowed = true := by
  intro fuel
  induction fuel with
  | zero =>
    intro node tokens e ts2 hnode h
    simp [Parser.binMatchLoop] at h
  | succ f ih =>
    intro node tokens e ts2 hnode h
    simp only [Parser.binMatchLoop] at h
    cases hmot : Parser.match_operator_tokens tts tokens with
    | ok oop ts1 =>
      simp only [hmot] at h
      cases oop with
      | some operator =>
        cases hpf : precedence_fn ts1 with
        | ok right tsr =>
          simp only [hpf] at h
          refine ih _ _ _ _ ?_ h
          have hop := match_operator_tokens_allowed hsub hmot
          have hr := hpre _ _ _ hpf
          simp [ExprNode.opsAllowed, hnode, hop, hr]
        | err e2 ts3 => simp [hpf] at h
        | panicked m => simp [hpf] at h
        | fuelOut => simp [hpf] at h
      | none =>
        simp only [PRes.ok.injEq] at h
        obtain ⟨rfl, -⟩ := h
        exact hnode
    | err e2 ts3 => simp [hmot] at h
    | panicked m => simp [hmot] at h
    | fuelOut => simp [hmot] at h

/-- `binary_expression_match` preserves the `opsAllowed` invariant. -/
theorem binary_expression_match_allowed {precedence_fn : List Token → PRes ExprNode}
    {tts : List TokenType}
    (hsub : ∀ tt ∈ tts, tt ∈ parserOperatorTokenTypes)
    (hpre : ∀ ts e ts2, precedence_fn ts = .ok e ts2 → e.opsAllowed = true) :
    ∀ (fuel : ℕ) (tokens : List Token) (e : ExprNode) (ts2 : List Token),
      Parser.binary_expression_match precedence_fn tts fuel tokens = .ok e ts2 →
      e.opsAllowed = true := by
  intro fuel tokens e ts2 h
  unfold Parser.binary_expression_match at h
  cases hpf : precedence_fn tokens with
  | ok node ts1 =>
    simp only [hpf] at h
    exact binMatchLoop_allowed hsub hpre fuel node ts1 e ts2 (hpre _ _ _ hpf) h
  | err e2 ts3 => simp [hpf] at h
  | panicked m => simp [hpf] at h
  | fuelOut => simp [hpf] at h


/-- The equality level's operator set. -/
theorem tts_sub_equality :
    ∀ tt ∈ ([.BangEqual, .EqualEqual] : List TokenType), tt ∈ parserOperatorTokenTypes := by
  intro tt htt
  simp only [List.mem_cons, List.not_mem_nil, or_false] at htt
  rcases htt with rfl | rfl <;> decide

/-- The comparison level's operator set. -/
theorem tts_sub_comparison :
    ∀ tt ∈ ([.Less, .Greater, .LessEqual, .GreaterEqual] : List TokenType),
      tt ∈ parserOperatorTokenTypes := by
  intro tt htt
  simp only [List.mem_cons, List.not_mem_nil, or_false] at htt
  rcases htt with rfl | rfl | rfl | rfl <;> decide

/-- The term level's operator set. -/
theorem tts_sub_term :
    ∀ tt ∈ ([.Plus, .Minus] : List TokenType), tt ∈ parserOperatorTokenTypes := by
  intro tt htt
  simp only [List.mem_cons, List.not_mem_nil, or_false] at htt
  rcases htt with rfl | rfl <;> decide

/-- The factor level's operator set. -/
theorem tts_sub_factor :
    ∀ tt ∈ ([.Star, .Slash] : List TokenType), tt ∈ parserOperatorTokenTypes := by
  intro tt htt
  simp only [List.mem_cons, List.not_mem_nil, or_false] at htt
  rcases htt with rfl | rfl <;> decide

/-- Every expression produced by any level of the expression parser
satisfies `opsAllowed`, for every fuel. -/
theorem parser_opsAllowed :
    ∀ fuel : ℕ,
      (∀ ts e ts2, Parser.expression fuel ts = .ok e ts2 → e.opsAllowed = true) ∧
      (∀ ts e ts2, Parser.equality fuel ts = .ok e ts2 → e.opsAllowed = true) ∧
      (∀ ts e ts2, Parser.comparison fuel ts = .ok e ts2 → e.opsAllowed = true) ∧
      (∀ ts e ts2, Parser.term fuel ts = .ok e ts2 → e.opsAllowed = true) ∧
      (∀ ts e ts2, Parser.factor fuel ts = .ok e ts2 → e.opsAllowed = true) ∧
      (∀ ts e ts2, Parser.unary fuel ts = .ok e ts2 → e.opsAllowed = true) ∧
      (∀ ts e ts2, Parser.primary fuel ts = .ok e ts2 → e.opsAllowed = true) ∧
      (∀ ts e ts2, Parser.match_literals fuel ts = .ok e ts2 → e.opsAllowed = true) := by
  intro fuel
  induction fuel with
  | zero =>
    refine ⟨?_, ?_, ?_, ?_, ?_, ?_, ?_, ?_⟩ <;>
      (intro ts e ts2 h
       simp [Parser.expression, Parser.equality, Parser.comparison, Parser.term,
             Parser.factor, Parser.unary, Parser.primary, Parser.match_literals] at h)
  | succ f ih =>
    obtain ⟨ihExpr, ihEq, ihComp, ihTerm, ihFac, ihUn, ihPrim, ihML⟩ := ih
    have hML : ∀ ts e ts2, Parser.match_literals (f + 1) ts = .ok e ts2 →
        e.opsAllowed = true := by
      intro ts e ts2 h
      cases ts with
      | nil => simp [Parser.match_literals] at h
      | cons token rest =>
        simp only [Parser.match_literals, List.head?_cons] at h
        cases htt : token.token_type <;> simp only [htt, reduceIte] at h <;>
          first
          | (simp only [PRes.ok.injEq] at h
             obtain ⟨rfl, -⟩ := h
             rfl)
          | (simp at h)
          | (cases hpe : Parser.expression f rest with
             | ok expr tokens2 =>
               simp only [hpe] at h
               cases tokens2 with
               | nil => simp at h
               | cons token2 rest2 =>
                 by_cases hrp : token2.token_type = .RightParen
                 · simp only [hrp, reduceIte, PRes.ok.injEq] at h
                   obtain ⟨rfl, -⟩ := h
                   simp only [ExprNode.opsAllowed]
                   exact ihExpr _ _ _ hpe
                 · simp [hrp] at h
             | err e2 ts3 => simp only [hpe] at h; simp at h
             | panicked m => simp only [hpe] at h; simp at h
             | fuelOut => simp only [hpe] at h; simp at h)
    have hPrim : ∀ ts e ts2, Parser.primary (f + 1) ts = .ok e ts2 →
        e.opsAllowed = true := by
      intro ts e ts2 h
      simp only [Parser.primary] at h
      exact ihML _ _ _ h
    have hUn : ∀ ts e ts2, Parser.unary (f + 1) ts = .ok e ts2 →
        e.opsAllowed = true := by
      intro ts e ts2 h
      simp only [Parser.unary] at h
      cases hmot : Parser.match_operator_tokens [.Bang, .Minus] ts with
      | ok oop ts1 =>
        simp only [hmot] at h
        cases oop with
        | some operator =>
          cases hru : Parser.unary f ts1 with
          | ok right tsr =>
            simp only [hru, PRes.ok.injEq] at h
            obtain ⟨rfl, -⟩ := h
            have hop := match_operator_tokens_allowed
              (by intro tt htt
                  simp only [List.mem_cons, List.not_mem_nil, or_false] at htt
                  rcases htt with rfl | rfl <;> decide) hmot
            have hr := ihUn _ _ _ hru
            simp [ExprNode.opsAllowed, hop, hr]
          | err e2 ts3 => simp [hru] at h
          | panicked m => simp [hru] at h
          | fuelOut => simp [hru] at h
        | none => exact ihPrim _ _ _ h
      | err e2 ts3 => simp [hmot] at h
      | panicked m => simp [hmot] at h
      | fuelOut => simp [hmot] at h
    have hFac : ∀ ts e ts2, Parser.factor (f + 1) ts = .ok e ts2 →
        e.opsAllowed = true := by
      intro ts e ts2 h
      simp only [Parser.factor] at h
      exact binary_expression_match_allowed tts_sub_factor ihUn f ts e ts2 h
    have hTerm : ∀ ts e ts2, Parser.term (f + 1) ts = .ok e ts2 →
        e.opsAllowed = true := by
      intro ts e ts2 h
      simp only [Parser.term] at h
      exact binary_expression_match_allowed tts_sub_term ihFac f ts e ts2 h
    have hComp : ∀ ts e ts2, Parser.comparison (f + 1) ts = .ok e ts2 →
        e.opsAllowed = true := by
      intro ts e ts2 h
      simp only [Parser.comparison] at h
      exact binary_expression_match_allowed tts_sub_comparison ihTerm f ts e ts2 h
    have hEq : ∀ ts e ts2, Parser.equality (f + 1) ts = .ok e ts2 →
        e.opsAllowed = true := by
      intro ts e ts2 h
      simp only [Parser.equality] at h
      exact binary_expression_match_allowed tts_sub_equality ihComp f ts e ts2 h
    have hExpr : ∀ ts e ts2, Parser.expression (f + 1) ts = .ok e ts2 →
        e.opsAllowed = true := by
      intro ts e ts2 h
      simp only [Parser.expression] at h
      exact ihEq _ _ _ h
    exact ⟨hExpr, hEq, hComp, hTerm, hFac, hUn, hPrim, hML⟩


/-- Statements produced by `print_stmt` satisfy `opsAllowed`. -/
theorem print_stmt_opsAllowed :
    ∀ (fuel : ℕ) (ts : List Token) (s : StmtNode) (ts2 : List Token),
      Parser.print_stmt fuel ts = .ok s ts2 → s.opsAllowed = true := by
  intro fuel ts s ts2 h
  cases ts with
  | nil => simp [Parser.print_stmt] at h
  | cons token rest =>
    simp only [Parser.print_stmt] at h
    cases hpe : Parser.expression fuel rest with
    | ok expr tokens2 =>
      simp only [hpe] at h
      cases hc : Parser.consume .Semicolon tokens2 with
      | ok u ts3 =>
        simp only [hc, PRes.ok.injEq] at h
        obtain ⟨rfl, -⟩ := h
        simp only [StmtNode.opsAllowed]
        exact (parser_opsAllowed fuel).1 _ _ _ hpe
      | err e2 ts3 => simp [hc] at h
      | panicked m => simp [hc] at h
      | fuelOut => simp [hc] at h
    | err e2 ts3 => simp [hpe] at h
    | panicked m => simp [hpe] at h
    | fuelOut => simp [hpe] at h

/-- Statements produced by `statement` satisfy `opsAllowed`. -/
theorem statement_opsAllowed :
    ∀ (fuel : ℕ) (ts : List Token) (s : StmtNode) (ts2 : List Token),
      Parser.statement fuel ts = .ok s ts2 → s.opsAllowed = true := by
  intro fuel ts s ts2 h
  unfold Parser.statement at h
  cases ts with
  | nil => simp at h
  | cons token rest =>
    simp only [List.head?_cons] at h
    by_cases hp : Parser.match_token .Print token = true
    · simp only [hp, reduceIte] at h
      cases hps : Parser.print_stmt fuel (token :: rest) with
      | ok s1 ts3 =>
        simp only [hps, PRes.ok.injEq] at h
        obtain ⟨rfl, -⟩ := h
        exact print_stmt_opsAllowed _ _ _ _ hps
      | err e2 ts3 =>
        simp only [hps, PRes.ok.injEq] at h
        obtain ⟨rfl, -⟩ := h
        rfl
      | panicked m => simp [hps] at h
      | fuelOut => simp [hps] at h
    · rw [Bool.not_eq_true] at hp
      simp only [hp, reduceIte] at h
      cases hpe : Parser.expression fuel (token :: rest) with
      | ok expr ts3 =>
        simp only [hpe] at h
        cases hc : Parser.consume .Semicolon ts3 with
        | ok u ts4 =>
          simp only [hc, PRes.ok.injEq] at h
          obtain ⟨rfl, -⟩ := h
          simp only [StmtNode.opsAllowed]
          exact (parser_opsAllowed fuel).1 _ _ _ hpe
        | err e2 ts4 =>
          simp only [hc, PRes.ok.injEq] at h
          obtain ⟨rfl, -⟩ := h
          rfl
        | panicked m => simp [hc] at h
        | fuelOut => simp [hc] at h
      | err e2 ts3 =>
        simp only [hpe, PRes.ok.injEq] at h
        obtain ⟨rfl, -⟩ := h
        rfl
      | panicked m => simp [hpe] at h
      | fuelOut => simp [hpe] at h

/-- Every statement produced by `parse` satisfies `opsAllowed`. -/
theorem parse_opsAllowed :
    ∀ (fuel : ℕ) (ts : List Token) (ss : List StmtNode) (ts2 : List Token),
      Parser.parse fuel ts = .ok ss ts2 → ∀ s ∈ ss, s.opsAllowed = true := by
  intro fuel
  induction fuel with
  | zero => intro ts ss ts2 h; simp [Parser.parse] at h
  | succ f ih =>
    intro ts ss ts2 h
    simp only [Parser.parse] at h
    by_cases hlen : ts.length > 0
    · rw [if_pos hlen] at h
      cases hst : Parser.statement f ts with
      | ok s1 ts3 =>
        simp only [hst] at h
        cases hps : Parser.parse f ts3 with
        | ok ss2 ts4 =>
          simp only [hps, PRes.ok.injEq] at h
          obtain ⟨rfl, -⟩ := h
          intro s hs
          rcases List.mem_cons.mp hs with rfl | hmem
          · exact statement_opsAllowed _ _ _ _ hst
          · exact ih _ _ _ hps s hmem
        | err e2 ts4 => simp [hps] at h
        | panicked m => simp [hps] at h
        | fuelOut => simp [hps] at h
      | err e2 ts3 => simp [hst] at h
      | panicked m => simp [hst] at h
      | fuelOut => simp [hst] at h
    · rw [if_neg hlen] at h
      simp only [PRes.ok.injEq] at h
      obtain ⟨rfl, -⟩ := h
      intro s hs
      simp at hs

/-- Evaluating an expression whose operators are all `allowed` never
reaches the `todo!` panic branches of the evaluator. -/
theorem visit_node_no_panic :
    ∀ e : ExprNode, e.opsAllowed = true → ∀ m, visit_node e ≠ .panicked m := by
  intro e
  induction e with
  | Literal l => intro _ m; simp [visit_node]
  | Grouping child ih =>
    intro h m
    simp only [ExprNode.opsAllowed] at h
    simpa [visit_node] using ih h m
  | UnaryExpr operator right ih =>
    intro h m
    simp only [ExprNode.opsAllowed, Bool.and_eq_true] at h
    obtain ⟨hop, hr⟩ := h
    simp only [visit_node]
    cases hv : visit_node right with
    | ok v =>
      intro hcon
      cases operator <;> cases v <;> simp [Interpreter.unary_op] at hcon
    | err e2 => simp
    | panicked m2 => exact absurd hv (ih hr m2)
  | BinaryExpr left operator right ihl ihr =>
    intro h m
    simp only [ExprNode.opsAllowed, Bool.and_eq_true] at h
    obtain ⟨⟨hl, hop⟩, hr⟩ := h
    simp only [visit_node]
    cases hvl : visit_node left with
    | ok lv =>
      cases hvr : visit_node right with
      | ok rv =>
        intro hcon
        cases operator <;>
          first
          | (simp [Operator.allowed] at hop; done)
          | (cases lv <;> cases rv <;>
              simp [Interpreter.binary_op, Interpreter.add_impl] at hcon)
      | err e2 => simp
      | panicked m2 => exact absurd hvr (ihr hr m2)
    | err e2 => simp
    | panicked m2 => exact absurd hvl (ihl hl m2)

/-- **C10.** Every operator occurring in any `ExprNode` produced by the
parser's expression or statement entry points is one of `Add`, `Subtract`,
`Multiply`, `Divide`, `GreaterThan`, `LessThan`, `EqualEqual`, `NotEqual`, or
`Bang` (the `opsAllowed` predicate); `Equal`, `And` and `Or` never occur, so
the evaluator's panicking branches for them are unreachable on parsed
programs. -/
theorem claim_C10 :
    (∀ (fuel : ℕ) (ts : List Token) (e : ExprNode) (ts2 : List Token),
       Parser.expression fuel ts = .ok e ts2 → e.opsAllowed = true) ∧
    (∀ (fuel : ℕ) (ts : List Token) (s : StmtNode) (ts2 : List Token),
       Parser.statement fuel ts = .ok s ts2 → s.opsAllowed = true) ∧
    (∀ (fuel : ℕ) (ts : List Token) (ss : List StmtNode) (ts2 : List Token),
       Parser.parse fuel ts = .ok ss ts2 → ∀ s ∈ ss, s.opsAllowed = true) ∧
    (∀ e : ExprNode, e.opsAllowed = true → ∀ m, visit_node e ≠ .panicked m) :=
  ⟨fun fuel => (parser_opsAllowed fuel).1,
   statement_opsAllowed, parse_opsAllowed, visit_node_no_panic⟩

/-- **C10 witness**: the parsed literal `1`. -/
theorem claim_C10_witness :
    Parser.expression 100 [Token.new (.Number 1) "1" 1] = .ok (.Literal (.Number 1)) [] ∧
    (ExprNode.Literal (.Number 1)).opsAllowed = true :=
  ⟨rfl, claim_C10.1 100 [Token.new (.Number 1) "1" 1] (.Literal (.Number 1)) [] rfl⟩

end LoxRs
